import Mathlib

/-!
Shallow embedding of `kinesis_video_fragment_processor.py`
(`KvsFragementProcessor`) from the amazon-kvs-audio-consumer-library
repository, together with proofs about the claims of the specification.

Python byte strings are modelled as `List Nat` (each entry a byte value),
Python exceptions as the `PyError` error type of an `Except` computation
(`KeyError` for the missing-Segment raise, `ValueError` for the invalid-vint
raise, `IndexError` for an out-of-range index, `TypeError` for `int()` on a
non-numeric value), and the EBMLite element tree as the inductive `Element`
(every node carries an id, a decoded value, a `payloadOffset`/`size` pair
and a list of children; the functions only touch the fields the Python reads).
-/

namespace KVS

/-- Python exception kinds that the embedded functions can raise. -/
inductive PyError where
  | keyError
  | valueError
  | indexError
  | typeError
deriving DecidableEq, Repr

/-- Python indexing `data[i]` on a bytes object: `IndexError` when out of range. -/
def pyIndex (data : List Nat) (i : Nat) : Except PyError Nat :=
  match data[i]? with
  | some b => Except.ok b
  | none => Except.error PyError.indexError

/-- The `while size <= 8 and not (first_byte & mask): mask >>= 1; size += 1`
loop of `parse_vint`, returning the final `(mask, size)`.  The fuel argument
(9 at the call site) strictly exceeds the possible number of iterations. -/
def vintGo (b : Nat) : Nat → Nat → Nat → Nat × Nat
  | mask, size, 0 => (mask, size)
  | mask, size, fuel + 1 =>
    if size ≤ 8 ∧ b &&& mask = 0 then vintGo b (mask >>> 1) (size + 1) fuel
    else (mask, size)

/-- The `for i in range(1, size): value = (value << 8) | data[offset + i]`
loop of `parse_vint`, over the given list of loop indices. -/
def vintAccum (data : List Nat) (offset : Nat) : Nat → List Nat → Except PyError Nat
  | value, [] => Except.ok value
  | value, i :: is => do
    let b ← pyIndex data (offset + i)
    vintAccum data offset ((value <<< 8) ||| b) is

/-- `KvsFragementProcessor.parse_vint(data, offset)`. -/
def parse_vint (data : List Nat) (offset : Nat) : Except PyError (Nat × Nat) := do
  let first_byte ← pyIndex data offset
  let ms := vintGo first_byte 128 1 9
  if ms.2 > 8 then
    Except.error PyError.valueError
  else do
    let value ← vintAccum data offset (first_byte &&& (ms.1 - 1)) (List.range' 1 (ms.2 - 1))
    Except.ok (value, ms.2)

/-- `KvsFragementProcessor.extract_simpleblock_data(byte_array)`.  The Python
slice `byte_array[payload_offset:]` never fails, so no length check occurs. -/
def extract_simpleblock_data (byte_array : List Nat) : Except PyError (Nat × List Nat) := do
  let ts ← parse_vint byte_array 0
  let payload_offset := ts.2 + 2 + 1
  Except.ok (ts.1, byte_array.drop payload_offset)

/-- A dynamically typed EBMLite element value (`element.value` in Python). -/
inductive EValue where
  | vstr (s : String)
  | vint (n : Int)
  | vbytes (b : List Nat)
  | vnone
deriving DecidableEq, Repr

/-- An EBMLite element: numeric id, decoded value, raw-payload location and
children.  Leaves simply have an empty child list. -/
inductive Element where
  | mk (id : Nat) (value : EValue) (payloadOffset : Nat) (size : Nat)
      (children : List Element)

def Element.id : Element → Nat
  | .mk i _ _ _ _ => i

def Element.value : Element → EValue
  | .mk _ v _ _ _ => v

def Element.payloadOffset : Element → Nat
  | .mk _ _ p _ _ => p

def Element.size : Element → Nat
  | .mk _ _ _ s _ => s

def Element.children : Element → List Element
  | .mk _ _ _ _ c => c

/-- The `for element in fragment_dom: if element.id == 0x18538067: … break`
search shared by all three tree-walking functions. -/
def findSegment (fragment_dom : List Element) : Option Element :=
  fragment_dom.find? (fun e => e.id == 0x18538067)

/-- Python truthiness of an element value (`if tag_name:`). -/
def pyTruthy : EValue → Bool
  | .vstr s => !(s == "")
  | .vint n => !(n == 0)
  | .vbytes b => !b.isEmpty
  | .vnone => false

/-- The triple nested loop of `get_fragment_tags` that collects every
SimpleTag element under every Tag under every Tags child of the Segment. -/
def collectSimpleTags (segment : Element) : List Element :=
  (segment.children.filter (fun e => e.id == 0x1254C367)).flatMap fun tagsEl =>
    (tagsEl.children.filter (fun t => t.id == 0x7373)).flatMap fun tag =>
      tag.children.filter (fun t => t.id == 0x67C8)

/-- The inner loop of `get_fragment_tags` over one SimpleTag: the final
`(tag_name, tag_value)` pair, each starting as Python `None`. -/
def scanSimpleTag (st : Element) : Option EValue × Option EValue :=
  st.children.foldl
    (fun acc e =>
      if e.id == 0x45A3 then (some e.value, acc.2)
      else if e.id == 0x4487 || e.id == 0x4485 then (acc.1, some e.value)
      else acc)
    (none, none)

/-- Python `dict` assignment `d[k] = v`: overwrite in place when the key is
present, else append. -/
def dictInsert (d : List (EValue × Option EValue)) (k : EValue) (v : Option EValue) :
    List (EValue × Option EValue) :=
  if d.any (fun p => p.1 == k) then
    d.map (fun p => if p.1 == k then (k, v) else p)
  else d ++ [(k, v)]

/-- One iteration of the final loop of `get_fragment_tags`: add a SimpleTag
to the dict when its tag name is truthy (`if tag_name:`). -/
def addSimpleTag (d : List (EValue × Option EValue)) (st : Element) :
    List (EValue × Option EValue) :=
  match scanSimpleTag st with
  | (some name, v) => if pyTruthy name then dictInsert d name v else d
  | (none, _) => d

/-- `KvsFragementProcessor.get_fragment_tags(fragment_dom)`. -/
def get_fragment_tags (fragment_dom : List Element) :
    Except PyError (List (EValue × Option EValue)) :=
  match findSegment fragment_dom with
  | none => Except.error PyError.keyError
  | some segment => Except.ok ((collectSimpleTags segment).foldl addSimpleTag [])

/-- `KvsFragementProcessor.get_simple_block_offset(fragment_dom)`: the loop
`break`s after the first Cluster child, so only that cluster is scanned. -/
def get_simple_block_offset (fragment_dom : List Element) :
    Except PyError (List (Nat × Nat)) :=
  match findSegment fragment_dom with
  | none => Except.error PyError.keyError
  | some segment =>
    match segment.children.find? (fun e => e.id == 0x1F43B675) with
    | none => Except.ok []
    | some cluster =>
      Except.ok ((cluster.children.filter (fun el => el.id == 0xA3)).map
        (fun el => (el.payloadOffset, el.size)))

/-- The inner loop of `get_audio_tracks` over one TrackEntry: the final
`(track_number, track_name)` pair, initialised to `-1` and `""`. -/
def scanTrackEntry (el : Element) : EValue × EValue :=
  el.children.foldl
    (fun acc e =>
      if e.id == 0x536E then (acc.1, e.value)
      else if e.id == 0xD7 then (e.value, acc.2)
      else acc)
    (EValue.vint (-1), EValue.vstr "")

/-- One TrackEntry step of `get_audio_tracks`: update the pair of per-role
accumulators when the entry's name matches one of the two role names. -/
def trackStep (acc : EValue × EValue) (el : Element) : EValue × EValue :=
  if el.id == 0xAE then
    let tn := scanTrackEntry el
    if tn.2 == EValue.vstr "AUDIO_FROM_CUSTOMER" then (tn.1, acc.2)
    else if tn.2 == EValue.vstr "AUDIO_TO_CUSTOMER" then (acc.1, tn.1)
    else acc
  else acc

/-- Python `int(x)` as it applies to possible `element.value` payloads. -/
def pyToInt : EValue → Except PyError Int
  | .vint n => Except.ok n
  | .vstr s => match s.toInt? with
    | some n => Except.ok n
    | none => Except.error PyError.valueError
  | .vbytes _ => Except.error PyError.typeError
  | .vnone => Except.error PyError.typeError

/-- The main loop of `get_audio_tracks`: fold the two per-role accumulators
(initially Python int `0` each) over every TrackEntry of every Tracks child
of the Segment. -/
def audioAccs (segment : Element) : EValue × EValue :=
  segment.children.foldl
    (fun acc element =>
      if element.id == 0x1654AE6B then element.children.foldl trackStep acc
      else acc)
    (EValue.vint 0, EValue.vint 0)

/-- The final step of `get_audio_tracks`: fall back to `(1, 2)` when either
accumulator is still `0`, else return `int(...)` of both accumulators. -/
def audioResult (accs : EValue × EValue) : Except PyError (Int × Int) :=
  if accs.1 == EValue.vint 0 || accs.2 == EValue.vint 0 then
    Except.ok (1, 2)
  else do
    let a ← pyToInt accs.1
    let b ← pyToInt accs.2
    Except.ok (a, b)

/-- `KvsFragementProcessor.get_audio_tracks(fragment_dom)`. -/
def get_audio_tracks (fragment_dom : List Element) : Except PyError (Int × Int) :=
  match findSegment fragment_dom with
  | none => Except.error PyError.keyError
  | some segment => audioResult (audioAccs segment)

/-! ### Spec-side definitions used to state the claims -/

/-- The lowest `n` bytes of `v`, most significant first (big-endian). -/
def bigEndianBytes : Nat → Nat → List Nat
  | 0, _ => []
  | n + 1, v => ((v >>> (8 * n)) &&& 255) :: bigEndianBytes n v

/-- The `L`-byte EBML vint encoding of `v`, following the spec's description
of the format: a marker bit `0x80 >> (L-1)` in the first byte, the value's
most significant bits below it, and the remaining `L - 1` value bytes
big-endian.  Used only to state the round-trip law. -/
def encodeVint (L v : Nat) : List Nat :=
  ((128 >>> (L - 1)) ||| (v >>> (8 * (L - 1)))) :: bigEndianBytes (L - 1) v

/-- The TrackNumber assigned to the given role name by the last matching
entry of an ordered (name, number) entry list, if any. -/
def lastAssign (role : String) (entries : List (String × Int)) : Option Int :=
  entries.foldl (fun c p => if p.1 = role then some p.2 else c) none

/-- A TrackEntry element carrying one TrackName and one TrackNumber child. -/
def mkTrackEntry (name : String) (num : Int) : Element :=
  .mk 0xAE .vnone 0 0
    [.mk 0x536E (.vstr name) 0 0 [], .mk 0xD7 (.vint num) 0 0 []]

/-- A fragment DOM consisting of one Segment holding one Tracks container
with the given (TrackName, TrackNumber) entries. -/
def mkTracksDom (entries : List (String × Int)) : List Element :=
  [.mk 0x18538067 .vnone 0 0
    [.mk 0x1654AE6B .vnone 0 0 (entries.map fun p => mkTrackEntry p.1 p.2)]]

/-! ### Lemmas about the vint decoder -/

/-- On a first byte with marker bit `2^k` and value bits `t` below it, the
size loop stops with mask `2^k` and size `8 - k`, and masking with
`2^k - 1` recovers `t`. -/
lemma vintGo_marker : ∀ k < 8, ∀ t < 2 ^ k,
    vintGo (2 ^ k ||| t) 128 1 9 = (2 ^ k, 8 - k) ∧
      (2 ^ k ||| t) &&& (2 ^ k - 1) = t := by decide

lemma bigEndianBytes_length (n v : Nat) : (bigEndianBytes n v).length = n := by
  induction n with
  | zero => rfl
  | succ m ih => simp [bigEndianBytes, ih]

/-- Reassembling the top bits and the low byte of `w` recovers `w`. -/
lemma byte_recompose (w : Nat) : ((w >>> 8) <<< 8) ||| (w &&& 255) = w := by
  have h255 : (255 : Nat) = 2 ^ 8 - 1 := rfl
  rw [h255, Nat.and_pow_two_sub_one_eq_mod, Nat.shiftRight_eq_div_pow,
    Nat.shiftLeft_eq]
  calc w / 2 ^ 8 * 2 ^ 8 ||| w % 2 ^ 8
      = 2 ^ 8 * (w / 2 ^ 8) ||| w % 2 ^ 8 := by rw [Nat.mul_comm]
    _ = 2 ^ 8 * (w / 2 ^ 8) + w % 2 ^ 8 :=
        (Nat.mul_add_lt_is_or (Nat.mod_lt w (by norm_num)) _).symm
    _ = w := Nat.div_add_mod w (2 ^ 8)

/-- Folding the big-endian bytes of `v` onto its remaining top bits
reconstructs `v`. -/
lemma foldBE (n v : Nat) :
    (bigEndianBytes n v).foldl (fun a x => (a <<< 8) ||| x) (v >>> (8 * n)) = v := by
  induction n with
  | zero => simp [bigEndianBytes]
  | succ m ih =>
    simp only [bigEndianBytes, List.foldl_cons]
    have hs : v >>> (8 * (m + 1)) = (v >>> (8 * m)) >>> 8 := by
      rw [Nat.mul_succ, Nat.shiftRight_add]
    rw [hs, byte_recompose]
    exact ih

/-- The value-accumulation loop of `parse_vint`, run over the indices of
`tail` inside `front ++ tail`, folds exactly the bytes of `tail`. -/
lemma vintAccum_append (tail : List Nat) : ∀ (front : List Nat) (val : Nat),
    vintAccum (front ++ tail) 0 val (List.range' front.length tail.length) =
      Except.ok (tail.foldl (fun a x => (a <<< 8) ||| x) val) := by
  induction tail with
  | nil => intro front val; simp [vintAccum]
  | cons x rest ih =>
    intro front val
    rw [List.length_cons, List.range'_succ, List.foldl_cons]
    have hget : (front ++ x :: rest)[0 + front.length]? = some x := by
      rw [Nat.zero_add, List.getElem?_append_right (Nat.le_refl _)]
      simp
    simp only [vintAccum, pyIndex, hget]
    show vintAccum (front ++ x :: rest) 0 ((val <<< 8) ||| x)
        (List.range' (front.length + 1) rest.length) = _
    rw [show front ++ x :: rest = (front ++ [x]) ++ rest by simp,
      show front.length + 1 = (front ++ [x]).length by simp]
    exact ih (front ++ [x]) ((val <<< 8) ||| x)

lemma okBind {α β : Type} (a : α) (f : α → Except PyError β) :
    (Except.ok a >>= f : Except PyError β) = f a := rfl

/-- Evaluation of `parse_vint` on a nonempty buffer once the size loop's
outcome `(mask, size)` is known and the size is valid. -/
lemma parse_vint_eval (b : Nat) (rest : List Nat) (mask size : Nat)
    (hgo : vintGo b 128 1 9 = (mask, size)) (hsize : size ≤ 8) :
    parse_vint (b :: rest) 0 =
      (vintAccum (b :: rest) 0 (b &&& (mask - 1)) (List.range' 1 (size - 1)) >>=
        fun value => Except.ok (value, size)) := by
  simp only [parse_vint, pyIndex, List.getElem?_cons_zero, okBind, hgo]
  rw [if_neg (by omega : ¬ size > 8)]

/-! ### Lemmas about the tree walkers -/

/-- Every pair of the dict after a Python assignment either has the assigned
key or was already present. -/
lemma dictInsert_mem (d : List (EValue × Option EValue)) (k : EValue)
    (v : Option EValue) : ∀ q ∈ dictInsert d k v, q.1 = k ∨ q ∈ d := by
  intro q hq
  unfold dictInsert at hq
  split at hq
  · obtain ⟨p, hp, hfq⟩ := List.mem_map.mp hq
    by_cases hpk : p.1 == k
    · rw [if_pos hpk] at hfq
      left
      rw [← hfq]
    · rw [if_neg hpk] at hfq
      right
      rw [← hfq]
      exact hp
  · rcases List.mem_append.mp hq with h | h
    · right; exact h
    · left
      rw [List.mem_singleton.mp h]

/-- Processing one SimpleTag preserves "no key is the empty string": a tag
is only inserted under a truthy (hence non-empty) name. -/
lemma addSimpleTag_no_empty_key (d : List (EValue × Option EValue)) (st : Element)
    (h : ∀ q ∈ d, q.1 ≠ EValue.vstr "") :
    ∀ q ∈ addSimpleTag d st, q.1 ≠ EValue.vstr "" := by
  rcases hscan : scanSimpleTag st with ⟨tn, tv⟩
  cases tn with
  | none => simpa only [addSimpleTag, hscan] using h
  | some name =>
    by_cases htr : pyTruthy name
    · simp only [addSimpleTag, hscan, htr, if_true]
      intro q hq
      rcases dictInsert_mem d name tv q hq with hk | hd
      · rw [hk]
        intro hne
        rw [hne] at htr
        exact absurd htr (by simp [pyTruthy])
      · exact h q hd
    · simpa only [addSimpleTag, hscan, htr, if_false, Bool.false_eq_true] using h

lemma foldl_addSimpleTag_no_empty_key (sts : List Element) :
    ∀ (d : List (EValue × Option EValue)), (∀ q ∈ d, q.1 ≠ EValue.vstr "") →
      ∀ q ∈ sts.foldl addSimpleTag d, q.1 ≠ EValue.vstr "" := by
  induction sts with
  | nil => intro d h; exact h
  | cons st rest ih =>
    intro d h
    exact ih (addSimpleTag d st) (addSimpleTag_no_empty_key d st h)

/-- A synthetic TrackEntry scans to its number and name. -/
lemma scanTrackEntry_mk (name : String) (num : Int) :
    scanTrackEntry (mkTrackEntry name num) = (EValue.vint num, EValue.vstr name) := rfl

lemma mkTrackEntry_id (name : String) (num : Int) :
    (mkTrackEntry name num).id = 0xAE := rfl

/-- One `trackStep` on a synthetic TrackEntry updates exactly the accumulator
of the role the entry's name equals (exact, case-sensitive comparison). -/
lemma trackStep_mk (acc : EValue × EValue) (name : String) (num : Int) :
    trackStep acc (mkTrackEntry name num) =
      (if name = "AUDIO_FROM_CUSTOMER" then EValue.vint num else acc.1,
        if name = "AUDIO_TO_CUSTOMER" then EValue.vint num else acc.2) := by
  have hne : "AUDIO_FROM_CUSTOMER" ≠ "AUDIO_TO_CUSTOMER" := by decide
  by_cases h1 : name = "AUDIO_FROM_CUSTOMER"
  · subst h1
    simp [trackStep, mkTrackEntry_id, scanTrackEntry_mk, hne]
  · by_cases h2 : name = "AUDIO_TO_CUSTOMER"
    · subst h2
      simp [trackStep, mkTrackEntry_id, scanTrackEntry_mk, h1]
    · simp [trackStep, mkTrackEntry_id, scanTrackEntry_mk, h1, h2]

/-- The TrackEntry fold of `get_audio_tracks` acts componentwise: each role
accumulator ends up holding the number of the last entry bearing that role's
name, if any. -/
lemma trackFold (entries : List (String × Int)) : ∀ acc : EValue × EValue,
    (entries.map fun p => mkTrackEntry p.1 p.2).foldl trackStep acc =
      (entries.foldl
          (fun a p => if p.1 = "AUDIO_FROM_CUSTOMER" then EValue.vint p.2 else a) acc.1,
        entries.foldl
          (fun a p => if p.1 = "AUDIO_TO_CUSTOMER" then EValue.vint p.2 else a) acc.2) := by
  induction entries with
  | nil => intro acc; simp
  | cons p ps ih =>
    intro acc
    simp only [List.map_cons, List.foldl_cons]
    rw [trackStep_mk]
    exact ih _

lemma roleAcc_lastAssign (role : String) (entries : List (String × Int)) :
    ∀ (c : Option Int) (a : EValue),
      entries.foldl (fun a p => if p.1 = role then EValue.vint p.2 else a)
          (match c with | some k => EValue.vint k | none => a) =
        match entries.foldl (fun c p => if p.1 = role then some p.2 else c) c with
        | some k => EValue.vint k
        | none => a := by
  induction entries with
  | nil => intro c a; rfl
  | cons p ps ih =>
    intro c a
    simp only [List.foldl_cons]
    by_cases hp : p.1 = role
    · rw [if_pos hp, if_pos hp]
      exact ih (some p.2) a
    · rw [if_neg hp, if_neg hp]
      exact ih c a

lemma lastAssign_none (role : String) (entries : List (String × Int))
    (h : ∀ p ∈ entries, p.1 ≠ role) : lastAssign role entries = none := by
  have hgen : ∀ (l : List (String × Int)), (∀ p ∈ l, p.1 ≠ role) → ∀ c : Option Int,
      l.foldl (fun c p => if p.1 = role then some p.2 else c) c = c := by
    intro l
    induction l with
    | nil => intro _ c; rfl
    | cons p ps ih =>
      intro hl c
      simp only [List.foldl_cons]
      rw [if_neg (hl p (List.mem_cons_self p ps))]
      exact ih (fun q hq => hl q (List.mem_cons_of_mem p hq)) c
  exact hgen entries h none

lemma Element.id_mk (i : Nat) (v : EValue) (p s : Nat) (c : List Element) :
    (Element.mk i v p s c).id = i := rfl

lemma Element.children_mk (i : Nat) (v : EValue) (p s : Nat) (c : List Element) :
    (Element.mk i v p s c).children = c := rfl

lemma findSegment_mkTracksDom (entries : List (String × Int)) :
    findSegment (mkTracksDom entries) =
      some (Element.mk 0x18538067 .vnone 0 0
        [Element.mk 0x1654AE6B .vnone 0 0
          (entries.map fun p => mkTrackEntry p.1 p.2)]) := by
  rw [findSegment, mkTracksDom]
  rw [List.find?_cons_of_pos]
  simp [Element.id_mk]

lemma get_audio_tracks_some (dom : List Element) (seg : Element)
    (h : findSegment dom = some seg) :
    get_audio_tracks dom = audioResult (audioAccs seg) := by
  simp only [get_audio_tracks, h]

/-- On the synthetic Tracks DOM the accumulator fold reduces to the fold
over the synthetic TrackEntry elements. -/
lemma audioAccs_mk (entries : List (String × Int)) :
    audioAccs (Element.mk 0x18538067 .vnone 0 0
        [Element.mk 0x1654AE6B .vnone 0 0
          (entries.map fun p => mkTrackEntry p.1 p.2)]) =
      (entries.map fun p => mkTrackEntry p.1 p.2).foldl trackStep
        (EValue.vint 0, EValue.vint 0) := by
  have hc : ((Element.mk 0x1654AE6B EValue.vnone 0 0
      (entries.map fun p => mkTrackEntry p.1 p.2)).id == 0x1654AE6B) = true := by
    simp [Element.id_mk]
  unfold audioAccs
  rw [Element.children_mk, List.foldl_cons, List.foldl_nil]
  show (if (Element.mk 0x1654AE6B EValue.vnone 0 0
      (entries.map fun p => mkTrackEntry p.1 p.2)).id == 0x1654AE6B then
        (Element.mk 0x1654AE6B EValue.vnone 0 0
          (entries.map fun p => mkTrackEntry p.1 p.2)).children.foldl trackStep
          (EValue.vint 0, EValue.vint 0)
      else (EValue.vint 0, EValue.vint 0)) = _
  rw [if_pos hc, Element.children_mk]

/-- `trackFold` specialised to the zero-initialised accumulators. -/
lemma trackFold0 (entries : List (String × Int)) :
    (entries.map fun p => mkTrackEntry p.1 p.2).foldl trackStep
        (EValue.vint 0, EValue.vint 0) =
      (entries.foldl
          (fun a p => if p.1 = "AUDIO_FROM_CUSTOMER" then EValue.vint p.2 else a)
          (EValue.vint 0),
        entries.foldl
          (fun a p => if p.1 = "AUDIO_TO_CUSTOMER" then EValue.vint p.2 else a)
          (EValue.vint 0)) :=
  trackFold entries (EValue.vint 0, EValue.vint 0)

/-- `get_audio_tracks` on the synthetic Tracks DOM, expressed through the
last name-to-number assignment of each of the two roles. -/
lemma get_audio_tracks_lastAssign (entries : List (String × Int)) :
    get_audio_tracks (mkTracksDom entries) =
      audioResult
        (match lastAssign "AUDIO_FROM_CUSTOMER" entries with
          | some k => EValue.vint k
          | none => EValue.vint 0,
          match lastAssign "AUDIO_TO_CUSTOMER" entries with
          | some k => EValue.vint k
          | none => EValue.vint 0) := by
  have h1 : entries.foldl
      (fun a p => if p.1 = "AUDIO_FROM_CUSTOMER" then EValue.vint p.2 else a)
      (EValue.vint 0) =
        match lastAssign "AUDIO_FROM_CUSTOMER" entries with
        | some k => EValue.vint k
        | none => EValue.vint 0 :=
    roleAcc_lastAssign "AUDIO_FROM_CUSTOMER" entries none (EValue.vint 0)
  have h2 : entries.foldl
      (fun a p => if p.1 = "AUDIO_TO_CUSTOMER" then EValue.vint p.2 else a)
      (EValue.vint 0) =
        match lastAssign "AUDIO_TO_CUSTOMER" entries with
        | some k => EValue.vint k
        | none => EValue.vint 0 :=
    roleAcc_lastAssign "AUDIO_TO_CUSTOMER" entries none (EValue.vint 0)
  rw [get_audio_tracks_some (mkTracksDom entries) _ (findSegment_mkTracksDom entries),
    audioAccs_mk, trackFold0, h1, h2]

/-! ### Claim theorems -/

/-- Claim C3: for every vint byte length `L` in 1..8 and every value
encodable in `L` bytes, `parse_vint` applied at offset 0 to the `L`-byte
EBML encoding of the value returns exactly `(value, L)` (round-trip law). -/
theorem c3_vint_roundtrip (L v : Nat) (h1 : 1 ≤ L) (h2 : L ≤ 8)
    (h3 : v < 2 ^ (7 * L)) : parse_vint (encodeVint L v) 0 = Except.ok (v, L) := by
  have hk : 8 - L < 8 := by omega
  have hmarker : (128 : Nat) >>> (L - 1) = 2 ^ (8 - L) := by
    rw [Nat.shiftRight_eq_div_pow, show (128 : Nat) = 2 ^ 7 by norm_num,
      Nat.pow_div (by omega) (by norm_num)]
    congr 1
    omega
  have ht : v >>> (8 * (L - 1)) < 2 ^ (8 - L) := by
    rw [Nat.shiftRight_eq_div_pow,
      Nat.div_lt_iff_lt_mul (pow_pos (by norm_num) _)]
    calc v < 2 ^ (7 * L) := h3
      _ = 2 ^ (8 - L) * 2 ^ (8 * (L - 1)) := by
            rw [← pow_add]
            congr 1
            omega
  obtain ⟨hgo, hand⟩ := vintGo_marker (8 - L) hk (v >>> (8 * (L - 1))) ht
  rw [show 8 - (8 - L) = L by omega] at hgo
  have henc : encodeVint L v =
      (2 ^ (8 - L) ||| v >>> (8 * (L - 1))) :: bigEndianBytes (L - 1) v := by
    rw [encodeVint, hmarker]
  rw [henc, parse_vint_eval _ _ _ _ hgo h2, hand]
  have hacc := vintAccum_append (bigEndianBytes (L - 1) v)
    [2 ^ (8 - L) ||| v >>> (8 * (L - 1))] (v >>> (8 * (L - 1)))
  rw [bigEndianBytes_length, foldBE] at hacc
  simp only [List.singleton_append, List.length_singleton] at hacc
  rw [hacc, okBind]

/-- Claim C3 witness: the two concrete examples of the spec,
`decode([0x81]) = (1, 1)` and `decode([0x40, 0x05]) = (5, 2)`. -/
theorem c3_vint_roundtrip_witness :
    encodeVint 1 1 = [0x81] ∧ parse_vint [0x81] 0 = Except.ok (1, 1) ∧
      encodeVint 2 5 = [0x40, 0x05] ∧ parse_vint [0x40, 0x05] 0 = Except.ok (5, 2) :=
  ⟨by decide,
    by rw [show [0x81] = encodeVint 1 1 by decide]
       exact c3_vint_roundtrip 1 1 (by decide) (by decide) (by decide),
    by decide,
    by rw [show [0x40, 0x05] = encodeVint 2 5 by decide]
       exact c3_vint_roundtrip 2 5 (by decide) (by decide) (by decide)⟩

/-- Claim C1 (code behavior at the failing input): on the 1-byte SimpleBlock
payload `[0x81]`, whose total length 1 is below `vintLength + 3 = 4`,
`extract_simpleblock_data` does not fail at all: the unguarded Python slice
returns the decoded block `(1, b"")`, contradicting the claimed
`TruncatedBlock` failure. -/
theorem c1_code_behavior_at_failing_input :
    extract_simpleblock_data [0x81] = Except.ok (1, []) := rfl

/-- Claim C2 (code behavior at the failing input): on `[0x40]`, whose first
byte announces a 2-byte vint while only 1 byte remains, `parse_vint` fails
with Python's `IndexError` raised by the unguarded read `data[offset + i]` —
there is no explicit `OutOfRange` bounds check in the code. -/
theorem c2_code_behavior_at_failing_input :
    parse_vint [0x40] 0 = Except.error PyError.indexError := rfl

/-- Claim C4: on a SimpleBlock byte array whose leading vint decodes as
`(v, L)` and which holds at least `L + 3` bytes, `extract_simpleblock_data`
returns `v` as the track number and the bytes from position `L + 3` on,
verbatim, as the payload (2-byte timestamp and 1-byte flags skipped). -/
theorem c4_extract_simpleblock (raw : List Nat) (v L : Nat)
    (h1 : parse_vint raw 0 = Except.ok (v, L)) (_h2 : L + 3 ≤ raw.length) :
    extract_simpleblock_data raw = Except.ok (v, raw.drop (L + 3)) := by
  simp only [extract_simpleblock_data, h1, okBind]

/-- Claim C4 witness: the spec's example
`decodeBlock([0x81, 0x00, 0x00, 0x00, 0xAA, 0xBB]) = (1, [0xAA, 0xBB])`. -/
theorem c4_extract_simpleblock_witness :
    extract_simpleblock_data [0x81, 0x00, 0x00, 0x00, 0xAA, 0xBB] =
      Except.ok (1, [0xAA, 0xBB]) := by
  have h := c4_extract_simpleblock [0x81, 0x00, 0x00, 0x00, 0xAA, 0xBB] 1 1
    rfl (by decide)
  simpa using h

set_option maxRecDepth 4000 in
/-- Claim C8: `parse_vint` fails with the invalid-varint error (`ValueError`)
whenever the byte at `offset` is `0x00` (no set bit among the top 8 bit
positions), and for every nonzero first byte the size computed by the
mask-shifting loop lies between 1 and 8 inclusive. -/
theorem c8_invalid_varint_and_size_range :
    (∀ (data : List Nat) (offset : Nat), data[offset]? = some 0 →
        parse_vint data offset = Except.error PyError.valueError) ∧
      (∀ b, b < 256 → b ≠ 0 →
        1 ≤ (vintGo b 128 1 9).2 ∧ (vintGo b 128 1 9).2 ≤ 8) := by
  constructor
  · intro data offset h
    simp only [parse_vint, pyIndex, h, okBind]
    rw [show vintGo 0 128 1 9 = (0, 9) from rfl]
    rfl
  · decide

/-- Claim C8 witness: the zero byte `[0x00]` is rejected with `ValueError`,
and the nonzero first byte `0x01` yields the in-range size 8. -/
theorem c8_invalid_varint_and_size_range_witness :
    parse_vint [0x00] 0 = Except.error PyError.valueError ∧
      1 ≤ (vintGo 0x01 128 1 9).2 ∧ (vintGo 0x01 128 1 9).2 ≤ 8 :=
  ⟨c8_invalid_varint_and_size_range.1 [0x00] 0 rfl,
    c8_invalid_varint_and_size_range.2 0x01 (by decide) (by decide)⟩

/-- Claim C6: `get_fragment_tags` fails with the missing-Segment error
(`KeyError`) on every tree without a Segment-ID element, and returns the
empty mapping (not an error) when the first Segment has no Tags child. -/
theorem c6_fragment_tags (dom : List Element) :
    ((∀ e ∈ dom, e.id ≠ 0x18538067) →
        get_fragment_tags dom = Except.error PyError.keyError) ∧
      (∀ seg, findSegment dom = some seg →
        (∀ c ∈ seg.children, c.id ≠ 0x1254C367) →
        get_fragment_tags dom = Except.ok []) := by
  constructor
  · intro h
    have hfind : findSegment dom = none := by
      rw [findSegment, List.find?_eq_none]
      intro e he
      simp [h e he]
    rw [get_fragment_tags, hfind]
  · intro seg hseg h
    simp only [get_fragment_tags, hseg]
    have hfilter : seg.children.filter (fun e => e.id == 0x1254C367) = [] := by
      rw [List.filter_eq_nil_iff]
      intro e he
      simp [h e he]
    unfold collectSimpleTags
    rw [hfilter]
    rfl

/-- Claim C6 witness: a DOM with no Segment fails with `KeyError`, and a DOM
whose Segment has a (non-Tags) child but no Tags container yields `{}`. -/
theorem c6_fragment_tags_witness :
    get_fragment_tags [Element.mk 0x1654AE6B .vnone 0 0 []] =
        Except.error PyError.keyError ∧
      get_fragment_tags
          [Element.mk 0x18538067 .vnone 0 0 [Element.mk 0x1F43B675 .vnone 0 0 []]] =
        Except.ok [] :=
  ⟨(c6_fragment_tags _).1 (by decide),
    (c6_fragment_tags _).2 (Element.mk 0x18538067 .vnone 0 0
        [Element.mk 0x1F43B675 .vnone 0 0 []]) rfl (by decide)⟩

/-- Claim C10: a SimpleTag whose TagName resolves to the empty string is
dropped by `get_fragment_tags` exactly as if the name were missing (the
Python `if tag_name:` truthiness test), and every key of a successfully
returned mapping is a non-empty tag name. -/
theorem c10_empty_tagname_dropped :
    (∀ (d : List (EValue × Option EValue)) (st : Element),
        (scanSimpleTag st).1 = some (EValue.vstr "") → addSimpleTag d st = d) ∧
      (∀ (dom : List Element) (tags : List (EValue × Option EValue)),
        get_fragment_tags dom = Except.ok tags →
        ∀ q ∈ tags, q.1 ≠ EValue.vstr "") := by
  constructor
  · intro d st h
    rcases hscan : scanSimpleTag st with ⟨tn, tv⟩
    rw [hscan] at h
    simp only at h
    simp only [addSimpleTag, hscan, h]
    simp [pyTruthy]
  · intro dom tags h
    rw [get_fragment_tags] at h
    rcases hfind : findSegment dom with _ | seg
    · rw [hfind] at h
      exact absurd h (by simp)
    · rw [hfind] at h
      have htags : tags = (collectSimpleTags seg).foldl addSimpleTag [] := by
        injection h with h'
        exact h'.symm
      rw [htags]
      exact foldl_addSimpleTag_no_empty_key _ [] (by simp)

/-- Claim C10 witness: a SimpleTag named `""` with a value is dropped, and
the keys of a mapping extracted from a two-tag fragment (one empty-named,
one named "A") are all non-empty. -/
theorem c10_empty_tagname_dropped_witness :
    addSimpleTag []
        (Element.mk 0x67C8 .vnone 0 0
          [Element.mk 0x45A3 (.vstr "") 0 0 [],
            Element.mk 0x4487 (.vstr "x") 0 0 []]) = [] ∧
      (∀ q ∈ [(EValue.vstr "A", some (EValue.vstr "x"))],
        q.1 ≠ EValue.vstr "") :=
  ⟨c10_empty_tagname_dropped.1 [] _ rfl,
    c10_empty_tagname_dropped.2
      [Element.mk 0x18538067 .vnone 0 0
        [Element.mk 0x1254C367 .vnone 0 0
          [Element.mk 0x7373 .vnone 0 0
            [Element.mk 0x67C8 .vnone 0 0
              [Element.mk 0x45A3 (.vstr "") 0 0 [],
                Element.mk 0x4487 (.vstr "x") 0 0 []],
              Element.mk 0x67C8 .vnone 0 0
                [Element.mk 0x45A3 (.vstr "A") 0 0 [],
                  Element.mk 0x4487 (.vstr "x") 0 0 []]]]]] _ rfl⟩

/-- Claim C7: `get_simple_block_offset` scans only the first Cluster-type
direct child of Segment, returning the `(payloadOffset, size)` pair of each
of its SimpleBlock-type children in tree order — independent of whatever
(including later sibling Clusters) follows that cluster — and returns the
empty list, not an error, when Segment has no Cluster child. -/
theorem c7_first_cluster_only (dom : List Element) (seg : Element)
    (hseg : findSegment dom = some seg) :
    (∀ pre c rest, seg.children = pre ++ c :: rest → c.id = 0x1F43B675 →
        (∀ e ∈ pre, e.id ≠ 0x1F43B675) →
        get_simple_block_offset dom =
          Except.ok ((c.children.filter (fun el => el.id == 0xA3)).map
            (fun el => (el.payloadOffset, el.size)))) ∧
      ((∀ e ∈ seg.children, e.id ≠ 0x1F43B675) →
        get_simple_block_offset dom = Except.ok []) := by
  constructor
  · intro pre c rest hchildren hc hpre
    have hfind : seg.children.find? (fun e => e.id == 0x1F43B675) = some c := by
      rw [hchildren, List.find?_append]
      have hnone : pre.find? (fun e => e.id == 0x1F43B675) = none := by
        rw [List.find?_eq_none]
        intro e he
        simp [hpre e he]
      rw [hnone, List.find?_cons_of_pos _ (by simp [hc])]
      rfl
    simp only [get_simple_block_offset, hseg, hfind]
  · intro h
    have hfind : seg.children.find? (fun e => e.id == 0x1F43B675) = none := by
      rw [List.find?_eq_none]
      intro e he
      simp [h e he]
    simp only [get_simple_block_offset, hseg, hfind]

/-- Claim C7 witness: in a Segment holding a Tracks element, a first Cluster
with two SimpleBlocks, and a second Cluster with another SimpleBlock, only
the first cluster's two blocks are listed; a Segment with no Cluster child
yields the empty list. -/
theorem c7_first_cluster_only_witness :
    get_simple_block_offset
        [Element.mk 0x18538067 .vnone 0 0
          [Element.mk 0x1654AE6B .vnone 0 0 [],
            Element.mk 0x1F43B675 .vnone 0 0
              [Element.mk 0xA3 .vnone 10 4 [], Element.mk 0xE7 (.vint 0) 0 0 [],
                Element.mk 0xA3 .vnone 20 6 []],
            Element.mk 0x1F43B675 .vnone 0 0 [Element.mk 0xA3 .vnone 30 8 []]]] =
        Except.ok [(10, 4), (20, 6)] ∧
      get_simple_block_offset
          [Element.mk 0x18538067 .vnone 0 0 [Element.mk 0x1654AE6B .vnone 0 0 []]] =
        Except.ok [] := by
  refine ⟨(c7_first_cluster_only
      [Element.mk 0x18538067 .vnone 0 0
        [Element.mk 0x1654AE6B .vnone 0 0 [],
          Element.mk 0x1F43B675 .vnone 0 0
            [Element.mk 0xA3 .vnone 10 4 [], Element.mk 0xE7 (.vint 0) 0 0 [],
              Element.mk 0xA3 .vnone 20 6 []],
          Element.mk 0x1F43B675 .vnone 0 0 [Element.mk 0xA3 .vnone 30 8 []]]]
      _ rfl).1
      [Element.mk 0x1654AE6B .vnone 0 0 []]
      (Element.mk 0x1F43B675 .vnone 0 0
        [Element.mk 0xA3 .vnone 10 4 [], Element.mk 0xE7 (.vint 0) 0 0 [],
          Element.mk 0xA3 .vnone 20 6 []])
      [Element.mk 0x1F43B675 .vnone 0 0 [Element.mk 0xA3 .vnone 30 8 []]]
      rfl rfl (by decide),
    (c7_first_cluster_only
      [Element.mk 0x18538067 .vnone 0 0 [Element.mk 0x1654AE6B .vnone 0 0 []]]
      _ rfl).2 (by decide)⟩

/-- Claim C5: on a Tracks section whose entries assign
"AUDIO_FROM_CUSTOMER" the number 1 and "AUDIO_TO_CUSTOMER" the number 2,
`get_audio_tracks` returns `(1, 2)`; when neither role name appears among
the entries it does not fail but returns the deterministic fallback
`(1, 2)`.  Matching is exact, case-sensitive string equality: entries under
any other name (including other-cased variants) count as absent. -/
theorem c5_track_resolution (entries : List (String × Int)) :
    (lastAssign "AUDIO_FROM_CUSTOMER" entries = some 1 →
        lastAssign "AUDIO_TO_CUSTOMER" entries = some 2 →
        get_audio_tracks (mkTracksDom entries) = Except.ok (1, 2)) ∧
      ((∀ p ∈ entries, p.1 ≠ "AUDIO_FROM_CUSTOMER" ∧ p.1 ≠ "AUDIO_TO_CUSTOMER") →
        get_audio_tracks (mkTracksDom entries) = Except.ok (1, 2)) := by
  constructor
  · intro hf ht
    rw [get_audio_tracks_lastAssign, hf, ht]
    rfl
  · intro h
    have hf := lastAssign_none "AUDIO_FROM_CUSTOMER" entries fun p hp => (h p hp).1
    have ht := lastAssign_none "AUDIO_TO_CUSTOMER" entries fun p hp => (h p hp).2
    rw [get_audio_tracks_lastAssign, hf, ht]
    rfl

/-- Claim C5 witness: the two named entries resolve to `(1, 2)`, and a DOM
whose only entry bears a differently-cased name falls back to `(1, 2)`. -/
theorem c5_track_resolution_witness :
    get_audio_tracks
        (mkTracksDom [("AUDIO_FROM_CUSTOMER", 1), ("AUDIO_TO_CUSTOMER", 2)]) =
        Except.ok (1, 2) ∧
      get_audio_tracks (mkTracksDom [("Audio_From_Customer", 7)]) =
        Except.ok (1, 2) :=
  ⟨(c5_track_resolution _).1 rfl rfl, (c5_track_resolution _).2 (by decide)⟩

/-- Claim C9: when exactly one role resolves to a nonzero track number and
the other role's name never occurs (its accumulator stays 0), the fallback
branch fires and `get_audio_tracks` returns `(1, 2)` for both roles,
discarding the successfully resolved number. -/
theorem c9_partial_resolution_fallback (entries : List (String × Int)) (v : Int)
    (_hv : v ≠ 0) :
    (lastAssign "AUDIO_FROM_CUSTOMER" entries = some v →
        (∀ p ∈ entries, p.1 ≠ "AUDIO_TO_CUSTOMER") →
        get_audio_tracks (mkTracksDom entries) = Except.ok (1, 2)) ∧
      (lastAssign "AUDIO_TO_CUSTOMER" entries = some v →
        (∀ p ∈ entries, p.1 ≠ "AUDIO_FROM_CUSTOMER") →
        get_audio_tracks (mkTracksDom entries) = Except.ok (1, 2)) := by
  constructor
  · intro hf hto
    rw [get_audio_tracks_lastAssign, hf, lastAssign_none _ _ hto]
    unfold audioResult
    simp
  · intro ht hfrom
    rw [get_audio_tracks_lastAssign, ht, lastAssign_none _ _ hfrom]
    unfold audioResult
    simp

/-- Claim C9 witness: a lone "AUDIO_FROM_CUSTOMER" entry resolved to 5 is
discarded and the fallback `(1, 2)` is returned. -/
theorem c9_partial_resolution_fallback_witness :
    get_audio_tracks (mkTracksDom [("AUDIO_FROM_CUSTOMER", 5)]) =
      Except.ok (1, 2) :=
  (c9_partial_resolution_fallback [("AUDIO_FROM_CUSTOMER", 5)] 5
    (by decide)).1 rfl (by decide)

end KVS
